import Mathlib

/-!
Verification of the data-transformation pipeline of the text-analytics
dashboard (`src/utils/data_processor.py`): `load_data`,
`get_aggregate_metrics`, `extract_keywords`, `filter_dataframe`,
`search_dataframe`.

The Python code is shallowly embedded:
 - JSON values are the inductive `JVal` (numbers as exact rationals in
   normalized `Int × Nat` form; the floats of the claims are small
   integers on which float arithmetic is exact).
 - pandas DataFrames are `DataFrame`: a column list plus rows of cells,
   where a cell is a value or missing (`NaN`/absent).
 - Python exceptions are `Except String`; dynamic-type errors of the
   interpreter (`TypeError`, `KeyError`, `AttributeError`) are modelled
   where the code can hit them.
 - String helpers (`split`, `strip`, `lower`, `join`) are re-implemented
   structurally over `List Char` with the semantics of the Python
   methods on ASCII data.
-/

namespace TextAnalytics

/-- Decidable equality of `Except` results, so that concrete pipeline
outcomes can be checked by `decide`. -/
instance {ε α : Type} [DecidableEq ε] [DecidableEq α] : DecidableEq (Except ε α) := fun a b =>
  match a, b with
  | .ok x, .ok y =>
    if h : x = y then isTrue (by rw [h]) else isFalse (fun hh => h (by cases hh; rfl))
  | .error x, .error y =>
    if h : x = y then isTrue (by rw [h]) else isFalse (fun hh => h (by cases hh; rfl))
  | .ok _, .error _ => isFalse (fun hh => by cases hh)
  | .error _, .ok _ => isFalse (fun hh => by cases hh)

/-! ### Exact rationals in normalized (numerator, denominator) form -/

/-- A rational number as a normalized pair: denominator positive,
numerator and denominator coprime. All values are built through
`normQ`, so structural equality is semantic equality. -/
abbrev QVal := Int × Nat

/-- Normalize a fraction `n / d` (with `d` a natural). `d = 0` never
occurs in the pipeline; it is mapped to the zero value. -/
def normQ (n : Int) (d : Nat) : QVal :=
  if d = 0 then (0, 1)
  else
    let g := Nat.gcd n.natAbs d
    (n / (g : Int), d / g)

/-- The rational zero. -/
def qzero : QVal := (0, 1)

/-- Embed an integer. -/
def qint (n : Int) : QVal := (n, 1)

/-- Addition of normalized rationals. -/
def addQ (a b : QVal) : QVal := normQ (a.1 * (b.2 : Int) + b.1 * (a.2 : Int)) (a.2 * b.2)

/-- Sum of a list of rationals, as Python's `sum` (left fold from 0). -/
def sumQ (l : List QVal) : QVal := l.foldl addQ qzero

/-- Divide a rational by a natural number (the denominator count of a
mean); division by zero never occurs (guarded by emptiness checks). -/
def divQNat (a : QVal) (k : Nat) : QVal := normQ a.1 (a.2 * k)

/-! ### JSON values

`json.load` produces nested dicts/lists/strings/numbers/bools/None.
A mutual inductive is used (instead of nesting `List`) so that
`DecidableEq` can be derived and evaluated by the kernel. -/

mutual
inductive JVal where
  | null
  | b (x : Bool)
  | n (x : QVal)
  | s (x : String)
  | arr (xs : JList)
  | obj (fs : JFields)
deriving DecidableEq
inductive JList where
  | nil
  | cons (hd : JVal) (tl : JList)
deriving DecidableEq
inductive JFields where
  | nil
  | cons (k : String) (v : JVal) (tl : JFields)
deriving DecidableEq
end

/-- Build a `JList` from a Lean list (for writing literals). -/
def JList.ofList : List JVal → JList
  | [] => .nil
  | x :: xs => .cons x (JList.ofList xs)

/-- Build `JFields` from a Lean association list (for writing literals). -/
def JFields.ofList : List (String × JVal) → JFields
  | [] => .nil
  | (k, v) :: xs => .cons k v (JFields.ofList xs)

/-- JSON object literal helper. -/
def jobj (fs : List (String × JVal)) : JVal := .obj (JFields.ofList fs)

/-- JSON array literal helper. -/
def jarr (xs : List JVal) : JVal := .arr (JList.ofList xs)

/-- JSON integer literal helper. -/
def jint (n : Int) : JVal := .n (qint n)

/-- Key lookup in a JSON object's fields (Python dict lookup; parsed
JSON objects have distinct keys, so first-match lookup is dict lookup). -/
def JFields.find? : JFields → String → Option JVal
  | .nil, _ => none
  | .cons k v tl, key => if k = key then some v else tl.find? key

/-- Membership of a value in a JSON array (Python `in` on a list). -/
def JList.hasVal : JList → JVal → Bool
  | .nil, _ => false
  | .cons x tl, v => x = v || tl.hasVal v

/-- All elements of a JSON array are strings. -/
def JList.allStr : JList → Bool
  | .nil => true
  | .cons x tl => (match x with | .s _ => true | _ => false) && tl.allStr

/-! ### Python-semantics helpers over strings (ASCII) -/

/-- Python `str.lower()` (ASCII range, which covers the pipeline's data). -/
def pyLower (s : String) : String := ⟨s.data.map Char.toLower⟩

/-- Python `str.strip()`: drop leading and trailing whitespace. -/
def pyStrip (s : String) : String :=
  ⟨((s.data.dropWhile Char.isWhitespace).reverse.dropWhile Char.isWhitespace).reverse⟩

/-- Split a character list at every separator occurrence (Python
`str.split(sep)` semantics: `"".split(',') == [""]`). -/
def splitChars (sep : Char) : List Char → List (List Char)
  | [] => [[]]
  | c :: cs =>
    let r := splitChars sep cs
    if c = sep then [] :: r
    else
      match r with
      | [] => [[c]]
      | p :: ps => (c :: p) :: ps

/-- Python `str.split(',')`. -/
def pySplitComma (s : String) : List String := (splitChars ',' s.data).map String.mk

/-- Python `', '.join(strings)`. -/
def joinComma : List String → String
  | [] => ""
  | [s] => s
  | s :: rest => s ++ ", " ++ joinComma rest

/-- Python `str(value)` for the values a flattened cell can hold.
Composite values never reach a rendered cell in this pipeline; their
rendering is abbreviated. Non-integral numbers are rendered as a
fraction (the claims never render a non-integral number). -/
def pyStr (v : JVal) : String :=
  match v with
  | .s s => s
  | .b b => if b then "True" else "False"
  | .null => "None"
  | .n q => if q.2 = 1 then (if q.1 < 0 then "-" ++ q.1.natAbs.repr else q.1.natAbs.repr)
            else q.1.natAbs.repr ++ "/" ++ q.2.repr
  | .arr _ => "[...]"
  | .obj _ => "\x7b...\x7d"

/-- Python truthiness (`if value:`) of a JSON value. -/
def pyTruthy (v : JVal) : Bool :=
  match v with
  | .null => false
  | .b b => b
  | .n q => q.1 ≠ 0
  | .s s => s ≠ ""
  | .arr xs => match xs with | .nil => false | _ => true
  | .obj fs => match fs with | .nil => false | _ => true

/-- Python `key in value` (`dict` key test, `list` membership,
`str` substring test via character-list infix; other receivers raise
`TypeError`). The substring test is only reached on malformed input. -/
def pyIn (key : String) (v : JVal) : Except String Bool :=
  match v with
  | .obj fs => .ok (fs.find? key).isSome
  | .arr xs => .ok (xs.hasVal (.s key))
  | .s t => .ok (decide (key.data <:+: t.data))
  | _ => .error "TypeError: argument of type is not iterable"

/-- Python `value[key]` subscript: dict lookup (`KeyError` when the key
is absent); any non-dict receiver raises `TypeError` for a string key. -/
def pySub (v : JVal) (key : String) : Except String JVal :=
  match v with
  | .obj fs =>
    match fs.find? key with
    | some x => .ok x
    | none => .error ("KeyError: " ++ key)
  | _ => .error "TypeError: subscript"

/-- Python `value.get(key, default)`: only dicts have `.get`
(`AttributeError` otherwise). -/
def jget (v : JVal) (key : String) (dflt : JVal) : Except String JVal :=
  match v with
  | .obj fs => .ok ((fs.find? key).getD dflt)
  | _ => .error "AttributeError: get"

/-- Map a fallible function over a list, aborting at the first
exception (a Python `for` loop that may raise). -/
def mapME {α β : Type} (f : α → Except String β) : List α → Except String (List β)
  | [] => .ok []
  | x :: xs =>
    match f x with
    | .error e => .error e
    | .ok y =>
      match mapME f xs with
      | .error e => .error e
      | .ok ys => .ok (y :: ys)

/-- Convert a JSON array of strings to a Lean list of strings
(`TypeError` on a non-string element, as Python `str.join` raises). -/
def toStrListE : JList → Except String (List String)
  | .nil => .ok []
  | .cons x tl =>
    match x with
    | .s s => (toStrListE tl).map (fun rest => s :: rest)
    | _ => .error "TypeError: sequence item is not str"

/-- Python `', '.join(value)`: the receiver list must be a JSON array of
strings. -/
def joinList (v : JVal) : Except String String :=
  match v with
  | .arr xs => (toStrListE xs).map joinComma
  | _ => .error "TypeError: can only join an iterable"

/-! ### The record flattener (`load_data`, lines 31-125)

Each of the eight `if section in contact_data:` blocks of the source
copies a fixed set of sub-fields, with a per-field default, into the
flat dict; list-valued fields are joined with `', '`. The blocks are
embedded table-driven: one schema entry per source block, one
`FieldSpec` per line of the corresponding `flat_data.update({...})`. -/

/-- One field copied by a flattening block: either a scalar copied via
`section.get(srcKey, default)`, or a list field copied via
`', '.join(section.get(srcKey, []))`. -/
inductive FieldSpec where
  | scalar (flatKey srcKey : String) (dflt : JVal)
  | joined (flatKey srcKey : String)
deriving DecidableEq

/-- The eight flattening blocks of `load_data`, in source order, with
their flat keys, source keys and defaults exactly as in the source. -/
def sectionSchema : List (String × List FieldSpec) :=
  [ ("basic_info",
      [ .scalar "full_name" "full_name" (.s ""),
        .scalar "company" "company" (.s ""),
        .scalar "role" "role" (.s "") ]),
    ("challenge_analysis",
      [ .scalar "raw_challenge" "raw_challenge" (.s ""),
        .scalar "challenge_category" "category" (.s ""),
        .joined "challenge_keywords" "keywords",
        .scalar "severity_level" "severity_level" (.s ""),
        .scalar "impact_area" "impact_area" (.s "") ]),
    ("scavenger_hunt_metrics",
      [ .scalar "participated" "participated" (.b false),
        .scalar "completion_rate" "completion_rate" (jint 0),
        .joined "completed_activities" "completed_activities",
        .scalar "response_speed" "response_speed" (.s ""),
        .scalar "completed_full_hunt" "completed_full_hunt" (.b false) ]),
    ("engagement_analysis",
      [ .scalar "overall_score" "overall_score" (jint 0),
        .scalar "response_pattern" "response_pattern" (.s ""),
        .joined "interested_features" "interested_features",
        .scalar "conversation_depth" "conversation_depth" (.s ""),
        .scalar "contact_sharing_willingness" "contact_sharing_willingness" (.s "") ]),
    ("sentiment_metrics",
      [ .scalar "overall_sentiment" "overall_sentiment" (.s ""),
        .scalar "sentiment_progression" "sentiment_progression" (.s ""),
        .scalar "enthusiasm_level" "enthusiasm_level" (jint 0),
        .joined "pain_points" "pain_points",
        .joined "satisfaction_signals" "satisfaction_signals" ]),
    ("industry_insights",
      [ .scalar "company_size_indicator" "company_size_indicator" (.s ""),
        .scalar "industry_vertical" "industry_vertical" (.s ""),
        .scalar "tech_adoption_level" "tech_adoption_level" (.s ""),
        .scalar "competitive_position" "competitive_position" (.s "") ]),
    ("follow_up_strategy",
      [ .scalar "recommended_next_step" "recommended_next_step" (.s ""),
        .scalar "suggested_content" "suggested_content" (.s ""),
        .scalar "ideal_follow_up_time" "ideal_follow_up_time" (.s ""),
        .scalar "preferred_channel" "preferred_channel" (.s ""),
        .joined "key_talking_points" "key_talking_points" ]),
    ("sales_qualification",
      [ .scalar "lead_score" "lead_score" (jint 0),
        .scalar "estimated_timeline" "estimated_timeline" (.s ""),
        .joined "objections_to_address" "objections_to_address",
        .scalar "budget_indicator" "budget_indicator" (.s ""),
        .scalar "decision_maker_status" "decision_maker_status" (.s "") ]) ]

/-- A flat row before tabulation: the `flat_data` dict, as an ordered
association list (all keys the code inserts are distinct, so dict
update is append). -/
abbrev Row := List (String × JVal)

/-- Evaluate one line of a `flat_data.update({...})` literal. -/
def fieldCell (sec : JVal) (fs : FieldSpec) : Except String (String × JVal) :=
  match fs with
  | .scalar fk sk d => (jget sec sk d).map (fun v => (fk, v))
  | .joined fk sk =>
    match jget sec sk (jarr []) with
    | .error e => .error e
    | .ok v =>
      match joinList v with
      | .error e => .error e
      | .ok s => .ok (fk, .s s)

/-- One `if section in contact_data: ... flat_data.update({...})` block. -/
def addSection (ca : JVal) (row : Row) (name : String) (fields : List FieldSpec) :
    Except String Row :=
  match pyIn name ca with
  | .error e => .error e
  | .ok b =>
    if b then
      match pySub ca name with
      | .error e => .error e
      | .ok sec =>
        match mapME (fieldCell sec) fields with
        | .error e => .error e
        | .ok cells => .ok (row ++ cells)
    else .ok row

/-- Apply the flattening blocks in order, threading the flat row (the
sequence of `if ... in contact_data:` statements). -/
def foldSections (ca : JVal) (row : Row) : List (String × List FieldSpec) → Except String Row
  | [] => .ok row
  | (n, fl) :: rest =>
    match addSection ca row n fl with
    | .error e => .error e
    | .ok row2 => foldSections ca row2 rest

/-- Flatten one envelope element (one iteration of the `for item in
data:` loop): `none` when the element lacks the
`message.content.contact_analytics` path (silently skipped), otherwise
the flat row. -/
def flattenItem (item : JVal) : Except String (Option Row) :=
  match pyIn "message" item with
  | .error e => .error e
  | .ok false => .ok none
  | .ok true =>
    match pySub item "message" with
    | .error e => .error e
    | .ok msg =>
      match pyIn "content" msg with
      | .error e => .error e
      | .ok false => .ok none
      | .ok true =>
        match pySub msg "content" with
        | .error e => .error e
        | .ok content =>
          match pyIn "contact_analytics" content with
          | .error e => .error e
          | .ok false => .ok none
          | .ok true =>
            match pySub content "contact_analytics" with
            | .error e => .error e
            | .ok ca =>
              match jget ca "contact_id" (.s "") with
              | .error e => .error e
              | .ok cid =>
                match foldSections ca [("contact_id", cid)] sectionSchema with
                | .error e => .error e
                | .ok row => .ok (some row)

/-- The whole extraction loop: flatten every element, keep the rows of
the elements that have the nested path, in order; any exception aborts
the load. -/
def flattenAll : List JVal → Except String (List Row)
  | [] => .ok []
  | e :: es =>
    match flattenItem e with
    | .error err => .error err
    | .ok r? =>
      match flattenAll es with
      | .error err => .error err
      | .ok rest => .ok (match r? with | some r => r :: rest | none => rest)

/-! ### DataFrames -/

/-- One table cell: a value, or missing (pandas `NaN` — either a key a
row's dict did not have, or a failed numeric coercion). -/
inductive Cell where
  | na
  | val (v : JVal)
deriving DecidableEq

/-- A pandas DataFrame: ordered column names and rows of cells (each
row lists the cells in column order). -/
structure DataFrame where
  cols : List String
  rows : List (List Cell)
deriving DecidableEq

/-- The column list `pd.DataFrame(list_of_dicts)` infers: every key in
first-appearance order. -/
def collectCols (rs : List Row) : List String :=
  rs.foldl (fun acc r => r.foldl
    (fun a kv => if a.contains kv.1 then a else a ++ [kv.1]) acc) []

/-- `pd.DataFrame(list_of_dicts)`: one row per dict; a column a dict
lacks becomes `NaN`. -/
def mkDataFrame (rs : List Row) : DataFrame :=
  let cs := collectCols rs
  ⟨cs, rs.map (fun r => cs.map (fun c =>
    match r.lookup c with
    | some v => Cell.val v
    | none => Cell.na))⟩

/-- The cell of row `r` (a cell list of a frame with columns `cols`) in
column `c`; `NaN` when the column is absent. -/
def cellAt (cols : List String) (c : String) (r : List Cell) : Cell :=
  match cols.findIdx? (· = c) with
  | some j => r.getD j .na
  | none => .na

/-- Transform one column in place if it exists (the
`if col in df.columns: df[col] = f(df[col])` pattern). -/
def mapColumn (df : DataFrame) (c : String) (f : Cell → Cell) : DataFrame :=
  match df.cols.findIdx? (· = c) with
  | none => df
  | some j =>
    ⟨df.cols, df.rows.map (fun r => r.mapIdx (fun i x => if i = j then f x else x))⟩

/-- Parse a decimal string as `pd.to_numeric` accepts it (optional
sign, digits, optional fractional part). -/
def parseNum (s : String) : Option QVal :=
  let core (cs : List Char) : Option QVal :=
    match cs.span (· ≠ '.') with
    | (intPart, rest) =>
      if intPart.all Char.isDigit ∧ intPart ≠ [] then
        let iv : Nat := intPart.foldl (fun a c => a * 10 + (c.toNat - 48)) 0
        match rest with
        | [] => some (qint iv)
        | '.' :: frac =>
          if frac.all Char.isDigit then
            let fv : Nat := frac.foldl (fun a c => a * 10 + (c.toNat - 48)) 0
            some (normQ (iv * 10 ^ frac.length + fv) (10 ^ frac.length))
          else none
        | _ => none
      else none
  match s.data with
  | '-' :: cs => (core cs).map (fun q => normQ (-q.1) q.2)
  | cs => core cs

/-- `pd.to_numeric(col, errors='coerce')` on one cell: numbers stay,
booleans become 0/1, numeric strings are parsed, everything else
(including missing) becomes `NaN`. -/
def toNumericCell (c : Cell) : Cell :=
  match c with
  | .na => .na
  | .val (.n q) => .val (.n q)
  | .val (.b b) => .val (.n (qint (if b then 1 else 0)))
  | .val (.s s) =>
    match parseNum s with
    | some q => .val (.n q)
    | none => .na
  | .val _ => .na

/-- `col.astype(bool)` on one cell: Python truthiness; `NaN` is a
truthy float, so a missing cell becomes `True`. -/
def toBoolCell (c : Cell) : Cell :=
  .val (.b (match c with | .na => true | .val v => pyTruthy v))

/-- The numeric columns `load_data` coerces. -/
def numericCols : List String :=
  ["completion_rate", "overall_score", "enthusiasm_level", "lead_score"]

/-- The boolean columns `load_data` coerces. -/
def boolCols : List String := ["participated", "completed_full_hunt"]

/-- The body of `load_data` after parsing: flatten every element,
build the frame, coerce the numeric and boolean columns. -/
def loadPipeline (data : List JVal) : Except String DataFrame :=
  match flattenAll data with
  | .error e => .error e
  | .ok rows =>
    let df := mkDataFrame rows
    let df := numericCols.foldl (fun d c => mapColumn d c toNumericCell) df
    let df := boolCols.foldl (fun d c => mapColumn d c toBoolCell) df
    .ok df

/-- `load_data`. Its input is the outcome of `open` + `json.load`
(external I/O): `.error cause` when the file cannot be opened or its
contents are not valid JSON, otherwise the parsed top-level array. The
`try/except` wraps any failure into the raised
`Exception("Error loading or processing data: ...")` carrying the
cause — the spec's `DataLoadError`. -/
def load_data (input : Except String (List JVal)) : Except String DataFrame :=
  match (match input with
         | .error e => (.error e : Except String DataFrame)
         | .ok data => loadPipeline data) with
  | .ok df => .ok df
  | .error e => .error ("Error loading or processing data: " ++ e)

/-! ### `get_aggregate_metrics` (lines 147-173) -/

/-- `df.empty`: no rows or no columns. -/
def dfEmpty (df : DataFrame) : Bool := df.rows.isEmpty || df.cols.isEmpty

/-- `df[c]`: the cells of column `c`, or `KeyError` when it is absent. -/
def getColE (df : DataFrame) (c : String) : Except String (List Cell) :=
  match df.cols.findIdx? (· = c) with
  | some j => .ok (df.rows.map (fun r => r.getD j .na))
  | none => .error ("KeyError: " ++ c)

/-- The cells of column `c`, or `[]` when it is absent (a total view of
`df[c]` used to state properties). -/
def colCellsD (df : DataFrame) (c : String) : List Cell :=
  match getColE df c with
  | .ok cells => cells
  | .error _ => []

/-- One aggregate metric value: a number, pandas `NaN` (mean of no
valid values), or a frequency distribution. -/
inductive MetricVal where
  | num (q : QVal)
  | nan
  | dist (d : List (JVal × Nat))
deriving DecidableEq

/-- The numeric content of a cell for `Series.mean`: `NaN` is skipped,
numbers count, booleans count as 0/1, anything else is a `TypeError`
(a non-numeric column cannot be averaged). -/
def cellNumE (c : Cell) : Except String (Option QVal) :=
  match c with
  | .na => .ok none
  | .val (.n q) => .ok (some q)
  | .val (.b b) => .ok (some (qint (if b then 1 else 0)))
  | .val _ => .error "TypeError: could not compute mean"

/-- `Series.mean()`: average of the valid (non-`NaN`) values; `NaN`
when there are none. -/
def seriesMean (cells : List Cell) : Except String MetricVal :=
  match mapME cellNumE cells with
  | .error e => .error e
  | .ok os =>
    if os.reduceOption.length = 0 then .ok .nan
    else .ok (.num (divQNat (sumQ os.reduceOption) os.reduceOption.length))

/-- Distinct elements in first-appearance order (dict/`Counter` key
order). -/
def firstDedupAux {α : Type} [DecidableEq α] (seen : List α) : List α → List α
  | [] => []
  | x :: xs =>
    if x ∈ seen then firstDedupAux seen xs
    else x :: firstDedupAux (x :: seen) xs

/-- Distinct elements in first-appearance order. -/
def firstDedup {α : Type} [DecidableEq α] (l : List α) : List α := firstDedupAux [] l

/-- Pair each distinct element with its number of occurrences, in
first-appearance order. -/
def tallies {α : Type} [DecidableEq α] (l : List α) : List (α × Nat) :=
  (firstDedup l).map (fun x => (x, l.count x))

/-- Stable descending sort by count (Python `sorted(key=count,
reverse=True)`, which both `Counter.most_common` and pandas
`value_counts` are documented to agree with). -/
def byCountDesc {α : Type} (tl : List (α × Nat)) : List (α × Nat) :=
  List.insertionSort (fun a b => b.2 ≤ a.2) tl

/-- `series.value_counts().to_dict()`: occurrence counts of the
non-`NaN` values, highest first. -/
def valueCounts (cells : List Cell) : List (JVal × Nat) :=
  byCountDesc (tallies (cells.filterMap
    (fun c => match c with | .val v => some v | .na => none)))

/-- `df[c].mean()` with the `KeyError` of a missing column. -/
def colMeanE (df : DataFrame) (c : String) : Except String MetricVal :=
  match getColE df c with
  | .error e => .error e
  | .ok cells => seriesMean cells

/-- `df[c].value_counts().to_dict()` with the `KeyError` of a missing
column. -/
def colDistE (df : DataFrame) (c : String) : Except String (List (JVal × Nat)) :=
  (getColE df c).map valueCounts

/-- `get_aggregate_metrics`: `{}` for an empty frame, otherwise the
metrics dict; the column accesses are evaluated in the source's dict-
literal order, and a missing column raises `KeyError`. -/
def get_aggregate_metrics (df : DataFrame) :
    Except String (List (String × MetricVal)) :=
  if dfEmpty df then .ok []
  else
    match colMeanE df "overall_score" with
    | .error e => .error e
    | .ok m1 =>
    match colMeanE df "lead_score" with
    | .error e => .error e
    | .ok m2 =>
    match colMeanE df "enthusiasm_level" with
    | .error e => .error e
    | .ok m3 =>
    match colMeanE df "completion_rate" with
    | .error e => .error e
    | .ok m4 =>
    match colDistE df "overall_sentiment" with
    | .error e => .error e
    | .ok d1 =>
    match colDistE df "challenge_category" with
    | .error e => .error e
    | .ok d2 =>
    match colDistE df "role" with
    | .error e => .error e
    | .ok d3 =>
    match colDistE df "preferred_channel" with
    | .error e => .error e
    | .ok d4 =>
    match colDistE df "industry_vertical" with
    | .error e => .error e
    | .ok d5 =>
    .ok [ ("total_contacts", .num (qint df.rows.length)),
           ("avg_engagement_score", m1),
           ("avg_lead_score", m2),
           ("avg_enthusiasm_level", m3),
           ("avg_completion_rate", m4),
           ("sentiment_distribution", .dist d1),
           ("challenge_categories", .dist d2),
           ("role_distribution", .dist d3),
           ("preferred_channels", .dist d4),
           ("industry_verticals", .dist d5) ]

/-! ### `extract_keywords` (lines 175-198) -/

/-- `keywords_str.split` requires a string receiver
(`AttributeError` on anything else). -/
def strOfVal (v : JVal) : Except String String :=
  match v with
  | .s s => .ok s
  | _ => .error "AttributeError: split"

/-- The value of a non-missing cell (`Series.dropna()` on one cell). -/
def cellVal? (c : Cell) : Option JVal :=
  match c with
  | .na => none
  | .val v => some v

/-- `extract_keywords`: over the non-null cells of the column (each
must be a string — `.split` on anything else raises), split on `','`,
strip each piece, drop empty pieces, count, return the 20 most common
as a token-to-count dict. -/
def extract_keywords (df : DataFrame) (column : String) :
    Except String (List (String × Nat)) :=
  match getColE df column with
  | .error e => .error e
  | .ok cells =>
    match mapME strOfVal (cells.filterMap cellVal?) with
    | .error e => .error e
    | .ok strs =>
      let allKeywords := strs.flatMap (fun s => (pySplitComma s).map pyStrip)
      let kept := allKeywords.filter (· ≠ "")
      .ok ((byCountDesc (tallies kept)).take 20)

/-! ### `filter_dataframe` (lines 217-238) -/

/-- A filter value: a list of accepted values, or a scalar compared
with `==`. -/
inductive FilterVal where
  | list (vs : List JVal)
  | scalar (v : JVal)
deriving DecidableEq

/-- Python truthiness of a filter value (`if value:`). -/
def filterTruthy : FilterVal → Bool
  | .list vs => !vs.isEmpty
  | .scalar v => pyTruthy v

/-- Keep the rows satisfying a predicate (boolean-mask indexing, which
builds a new frame). -/
def keepRows (df : DataFrame) (p : List Cell → Bool) : DataFrame :=
  ⟨df.cols, df.rows.filter p⟩

/-- `series.isin(vs)` on one cell (`NaN` is never in a value list). -/
def cellIn (c : Cell) (vs : List JVal) : Bool :=
  match c with
  | .val v => vs.contains v
  | .na => false

/-- `series == v` on one cell (`NaN` compares unequal to everything). -/
def cellEq (c : Cell) (v : JVal) : Bool :=
  match c with
  | .val w => w = v
  | .na => false

/-- One iteration of the filter loop: skipped when the value is falsy
(in particular an empty list) or the column is absent; a non-empty
list keeps membership matches; a scalar keeps equality matches. -/
def filterStep (acc : DataFrame) (cv : String × FilterVal) : DataFrame :=
  if filterTruthy cv.2 && acc.cols.contains cv.1 then
    match cv.2 with
    | .list vs =>
      if !vs.isEmpty then keepRows acc (fun r => cellIn (cellAt acc.cols cv.1 r) vs)
      else acc
    | .scalar v => keepRows acc (fun r => cellEq (cellAt acc.cols cv.1 r) v)
  else acc

/-- `filter_dataframe`: copy the frame (value semantics: identity),
then apply every filter in dict order. -/
def filter_dataframe (df : DataFrame) (filters : List (String × FilterVal)) : DataFrame :=
  filters.foldl filterStep df

/-! ### `search_dataframe` (lines 240-266) -/

/-- A token of the regex fragment the embedding covers: a literal
character, or `.` matching any character. `str.contains` uses
`re.search` on the term; on terms made of these tokens the embedding
is exact, and every theorem about other terms stays within the
fragment. -/
inductive RTok where
  | dot
  | lit (c : Char)
deriving DecidableEq

/-- Read a search term as a pattern of the fragment. -/
def parsePat (cs : List Char) : List RTok :=
  cs.map (fun c => if c = '.' then RTok.dot else RTok.lit c)

/-- Whether a pattern matches a prefix of the text (every token
consumes exactly one character). -/
def tokMatches : List RTok → List Char → Bool
  | [], _ => true
  | _ :: _, [] => false
  | t :: ts, c :: cs =>
    (match t with | .dot => true | .lit l => l = c) && tokMatches ts cs

/-- `re.search`: whether the pattern matches at some position. -/
def reSearch (toks : List RTok) : List Char → Bool
  | [] => tokMatches toks []
  | c :: cs => tokMatches toks (c :: cs) || reSearch toks cs

/-- Whether a column would have pandas dtype `object` (the duck-typed
"is this column text" test `df[column].dtype == 'object'`): anything
but an all-numeric-or-`NaN` column (float dtype) or an all-boolean
column (bool dtype). -/
def isObjectDtype (cells : List Cell) : Bool :=
  !(cells.all (fun c => match c with
      | .na => true | .val (.n _) => true | _ => false)) &&
  !(cells.all (fun c => match c with
      | .val (.b _) => true | _ => false))

/-- `fillna('').astype(str).str.lower()` on one cell. -/
def cellText (c : Cell) : String :=
  match c with
  | .na => ""
  | .val v => pyLower (pyStr v)

/-- `search_dataframe`: empty term returns the frame unchanged;
otherwise keep the rows where some object-dtype column's lowercased
string form matches the lowercased term under `re.search`. -/
def search_dataframe (df : DataFrame) (term : String) : DataFrame :=
  if term = "" then df
  else
    let pat := parsePat (pyLower term).data
    let objIdx := (List.range df.cols.length).filter
      (fun j => isObjectDtype (df.rows.map (fun r => r.getD j .na)))
    keepRows df (fun r => objIdx.any (fun j => reSearch pat (cellText (r.getD j .na)).data))

/-! ### Spec-side notions

These definitions follow the spec's words (§3, §4.1, §6, §8) and are
compared against the source embedding above. -/

/-- The source keys of the list-valued fields a section block joins. -/
def joinedKeys (fields : List FieldSpec) : List String :=
  fields.filterMap (fun f => match f with | .joined _ sk => some sk | _ => none)

/-- A list-valued sub-field is absent or a JSON array of strings
(spec §3: "comma-joined string from a list"). -/
def validListField (sfs : JFields) (lf : String) : Bool :=
  match sfs.find? lf with
  | none => true
  | some (.arr xs) => xs.allStr
  | some _ => false

/-- A known sub-object is absent, or an object whose list-valued
sub-fields are absent or arrays of strings (spec §4.1: the sub-objects
are independently optional; list-typed sub-fields are joined). -/
def validSection (ca : JFields) (name : String) (fields : List FieldSpec) : Bool :=
  match ca.find? name with
  | none => true
  | some (.obj sfs) => (joinedKeys fields).all (validListField sfs)
  | some _ => false

/-- A well-typed `contact_analytics` payload per the spec's data model. -/
def validAnalytics (ca : JVal) : Bool :=
  match ca with
  | .obj fs => sectionSchema.all (fun p => validSection fs p.1 p.2)
  | _ => false

/-- A valid envelope element (spec §6): a JSON object which optionally
contains `message.content.contact_analytics` with each present level an
object and the payload well-typed. -/
def validEnvelope (e : JVal) : Bool :=
  match e with
  | .obj fs =>
    match fs.find? "message" with
    | none => true
    | some (.obj ms) =>
      (match ms.find? "content" with
      | none => true
      | some (.obj cs) =>
        (match cs.find? "contact_analytics" with
        | none => true
        | some ca => validAnalytics ca)
      | some _ => false)
    | some _ => false
  | _ => false

/-- Whether an element contains the nested path
`message.content.contact_analytics` (the claims' "expected nested
path"). -/
def hasPath (e : JVal) : Bool :=
  match e with
  | .obj fs =>
    match fs.find? "message" with
    | some (.obj ms) =>
      (match ms.find? "content" with
      | some (.obj cs) => (cs.find? "contact_analytics").isSome
      | _ => false)
    | _ => false
  | _ => false

/-- The valid numeric content of a cell: numbers count, Python
booleans are numeric 0/1, anything else (missing in particular) is
excluded. -/
def validNumVal? (c : Cell) : Option QVal :=
  match c with
  | .val (.n q) => some q
  | .val (.b b) => some (qint (if b then 1 else 0))
  | _ => none

/-- The spec's mean (§4.3): sum of the valid (numeric, non-missing)
entries divided by their number — missing values excluded from both
numerator and denominator; undefined (`NaN`) with no valid entry. -/
def specValidMean (cells : List Cell) : MetricVal :=
  if (cells.filterMap validNumVal?).length = 0 then .nan
  else .num (divQNat (sumQ (cells.filterMap validNumVal?))
    (cells.filterMap validNumVal?).length)

/-- The spec's token list for a column (§4.4): per non-null string
cell, split on `','`, trim whitespace, drop empty pieces; rows with a
missing value contribute nothing. -/
def specTokens (df : DataFrame) (c : String) : List String :=
  match getColE df c with
  | .error _ => []
  | .ok cells =>
    (cells.filterMap (fun cl => match cl with | .val (.s s) => some s | _ => none)).flatMap
      (fun s => ((pySplitComma s).map pyStrip).filter (· ≠ ""))

/-- The spec's search (§4.5): empty term is the identity; otherwise
keep the rows where the lowercased string form of some text-typed
column contains the lowercased term as a substring. -/
def searchSpecSubstr (df : DataFrame) (term : String) : DataFrame :=
  if term = "" then df
  else
    let t := (pyLower term).data
    let objIdx := (List.range df.cols.length).filter
      (fun j => isObjectDtype (df.rows.map (fun r => r.getD j .na)))
    keepRows df (fun r => objIdx.any
      (fun j => decide (t <:+: (cellText (r.getD j .na)).data)))

/-- A term is a plain literal: none of its characters is a regex
metacharacter, so `re.search` on it is substring search. The test is
on the lowercased term (the form handed to `re.search`); lowercasing
maps `A`-`Z` to `a`-`z` and fixes every other character, and no
metacharacter is a letter, so this accepts exactly the terms without
metacharacters. -/
def plainLiteral (term : String) : Bool :=
  (pyLower term).data.all
    (fun c => !(['.', '^', '$', '*', '+', '?', '\\', '[', ']', '(', ')', '|']).contains c
      && c ≠ '\x7b' && c ≠ '\x7d')

/-- The cell of row `i`, column `c` of a frame: `none` when the row or
the column does not exist. -/
def getCell (df : DataFrame) (i : Nat) (c : String) : Option Cell :=
  match df.cols.findIdx? (· = c) with
  | some j => (df.rows[i]?).map (fun r => r.getD j .na)
  | none => none

/-! ### Concrete inputs used by witnesses and counterexamples -/

/-- The spec's end-to-end example element (§8): one envelope with
`contact_id`, a partial `basic_info` and a partial
`sales_qualification`. -/
def exampleElem : JVal :=
  jobj [("message", jobj [("content", jobj [("contact_analytics", jobj
    [ ("contact_id", .s "c1"),
      ("basic_info", jobj [("full_name", .s "Jane Doe"), ("role", .s "CTO")]),
      ("sales_qualification", jobj [("lead_score", jint 4)]) ])])])]

/-- A valid envelope element carrying every section except
`sentiment_metrics`, so the loaded table lacks the `enthusiasm_level`
and `overall_sentiment` columns. -/
def noSentimentElem : JVal :=
  jobj [("message", jobj [("content", jobj [("contact_analytics", jobj
    [ ("contact_id", .s "c9"),
      ("basic_info", jobj [("full_name", .s "A"), ("company", .s "B"), ("role", .s "CTO")]),
      ("challenge_analysis", jobj [("category", .s "cost"), ("keywords", jarr [.s "x"])]),
      ("scavenger_hunt_metrics", jobj [("participated", .b true), ("completion_rate", jint 80)]),
      ("engagement_analysis", jobj [("overall_score", jint 70)]),
      ("industry_insights", jobj [("industry_vertical", .s "tech")]),
      ("follow_up_strategy", jobj [("preferred_channel", .s "email")]),
      ("sales_qualification", jobj [("lead_score", jint 4)]) ])])])]

/-- A valid envelope element that lacks the nested path (no `message`
key at all). -/
def noPathElem : JVal := jobj [("other", .s "x")]

/-- A three-row table with `lead_score` = [2, NaN, 4] and every column
`get_aggregate_metrics` reads. -/
def meanExampleDf : DataFrame :=
  ⟨["overall_score", "lead_score", "enthusiasm_level", "completion_rate",
    "overall_sentiment", "challenge_category", "role", "preferred_channel",
    "industry_vertical"],
   [[.val (.n (10, 1)), .val (.n (2, 1)), .val (.n (5, 1)), .val (.n (50, 1)),
     .val (.s "Positive"), .val (.s "cost"), .val (.s "CTO"), .val (.s "email"),
     .val (.s "tech")],
    [.val (.n (20, 1)), .na, .val (.n (6, 1)), .val (.n (60, 1)),
     .val (.s "Neutral"), .val (.s "speed"), .val (.s "CEO"), .val (.s "phone"),
     .val (.s "retail")],
    [.val (.n (30, 1)), .val (.n (4, 1)), .val (.n (7, 1)), .val (.n (70, 1)),
     .val (.s "Positive"), .val (.s "cost"), .val (.s "CTO"), .val (.s "email"),
     .val (.s "tech")]]⟩

/-- The metrics computed on `meanExampleDf`. -/
def meanExampleMetrics : List (String × MetricVal) :=
  match get_aggregate_metrics meanExampleDf with
  | .ok m => m
  | .error _ => []

/-- The spec's keyword example (§8): two rows of `challenge_keywords`. -/
def keywordExampleDf : DataFrame :=
  ⟨["challenge_keywords"],
   [[.val (.s "cost, speed")], [.val (.s "cost, support")]]⟩

/-- A one-row, one-text-column table with cell `"abc"`. -/
def abcDf : DataFrame := ⟨["c"], [[.val (.s "abc")]]⟩

/-- A two-row table with a `role` column. -/
def roleDf : DataFrame :=
  ⟨["role"], [[.val (.s "CTO")], [.val (.s "CEO")]]⟩

/-! ## Theorems -/

/-- C3: for every load whose file cannot be opened or whose contents
are not valid JSON (the `open`/`json.load` stage fails with the given
cause), `load_data` raises the wrapped load error carrying the cause
and returns no table. -/
theorem load_failure_raises_wrapped_cause (cause : String) :
    load_data (.error cause) =
      .error ("Error loading or processing data: " ++ cause) := rfl

/-- Counterexample to C5 as stated: on the empty table the metrics
result does not contain a total count of zero — it is the empty dict,
with no `total_contacts` key at all. -/
theorem empty_metrics_total_count_missing :
    ¬ ((get_aggregate_metrics ⟨[], []⟩).toOption.bind
        (fun m => m.lookup "total_contacts") = some (.num (qint 0))) := by
  decide

/-- C5 (amended): for every empty table, `get_aggregate_metrics`
returns, without failing, the empty metrics dict (no keys: no count,
no means, no distributions). -/
theorem empty_metrics_is_empty_dict (df : DataFrame) (h : dfEmpty df = true) :
    get_aggregate_metrics df = .ok [] := by
  simp [get_aggregate_metrics, h]

/-- Witness for C5 (amended) at the concrete empty frame. -/
theorem empty_metrics_is_empty_dict_witness :
    dfEmpty ⟨[], []⟩ = true ∧ get_aggregate_metrics ⟨[], []⟩ = .ok [] :=
  ⟨by decide, empty_metrics_is_empty_dict ⟨[], []⟩ (by decide)⟩

/-- Counterexample to C2 as stated: on the spec's example element the
loaded row has no `overall_score` value 0 (the column does not exist,
because no `engagement_analysis` sub-object was present). -/
theorem example_row_overall_score_not_zero :
    ¬ ((load_data (.ok [exampleElem])).toOption.bind
        (fun df => getCell df 0 "overall_score") = some (.val (jint 0))) := by
  decide

/-- C2 (amended): loading the spec's one-element example yields exactly
one row with `contact_id = "c1"`, `full_name = "Jane Doe"`,
`role = "CTO"` and numeric `lead_score = 4`; the `overall_score` and
`participated` columns are absent (not 0 and false): only the sections
present contribute columns. -/
theorem example_row_loaded_exactly :
    load_data (.ok [exampleElem]) =
      .ok ⟨["contact_id", "full_name", "company", "role", "lead_score",
            "estimated_timeline", "objections_to_address", "budget_indicator",
            "decision_maker_status"],
           [[.val (.s "c1"), .val (.s "Jane Doe"), .val (.s ""), .val (.s "CTO"),
             .val (.n (4, 1)), .val (.s ""), .val (.s ""), .val (.s ""),
             .val (.s "")]]⟩ ∧
    (load_data (.ok [exampleElem])).toOption.map
        (fun df => (df.cols.contains "overall_score", df.cols.contains "participated")) =
      some (false, false) :=
  ⟨by decide, by decide⟩

set_option maxHeartbeats 2000000 in
/-- C10: a non-empty table produced by `load_data` from a valid
envelope array (here: one element carrying every section except
`sentiment_metrics`) on which `get_aggregate_metrics` raises a
missing-column `KeyError` instead of returning metrics. -/
theorem metrics_can_raise_missing_column :
    validEnvelope noSentimentElem = true ∧
    (load_data (.ok [noSentimentElem])).map (fun df => df.rows.isEmpty) = .ok false ∧
    (load_data (.ok [noSentimentElem])).map get_aggregate_metrics =
      .ok (.error "KeyError: enthusiasm_level") :=
  ⟨by decide, by decide, by decide⟩

/-! ### Frame-shape lemmas for `filter_dataframe` and `search_dataframe` -/

/-- One filter-loop step never changes the column list. -/
theorem filterStep_cols (acc : DataFrame) (cv : String × FilterVal) :
    (filterStep acc cv).cols = acc.cols := by
  unfold filterStep keepRows
  repeat' split
  all_goals rfl

/-- One filter-loop step keeps a sub-sequence of the rows. -/
theorem filterStep_rows_sublist (acc : DataFrame) (cv : String × FilterVal) :
    (filterStep acc cv).rows.Sublist acc.rows := by
  unfold filterStep keepRows
  repeat' split
  all_goals first
  | exact List.filter_sublist _
  | exact List.Sublist.refl _

/-- `filter_dataframe` never changes the column list. -/
theorem filter_dataframe_cols (fs : List (String × FilterVal)) (df : DataFrame) :
    (filter_dataframe df fs).cols = df.cols := by
  induction fs generalizing df with
  | nil => rfl
  | cons x xs ih =>
    have h : filter_dataframe df (x :: xs) = filter_dataframe (filterStep df x) xs := rfl
    rw [h, ih, filterStep_cols]

/-- `filter_dataframe` keeps a sub-sequence of the rows. -/
theorem filter_dataframe_rows_sublist (fs : List (String × FilterVal)) (df : DataFrame) :
    (filter_dataframe df fs).rows.Sublist df.rows := by
  induction fs generalizing df with
  | nil => exact List.Sublist.refl _
  | cons x xs ih =>
    exact (ih (filterStep df x)).trans (filterStep_rows_sublist df x)

/-- `search_dataframe` never changes the column list. -/
theorem search_dataframe_cols (df : DataFrame) (t : String) :
    (search_dataframe df t).cols = df.cols := by
  unfold search_dataframe keepRows
  split <;> rfl

/-- `search_dataframe` keeps a sub-sequence of the rows. -/
theorem search_dataframe_rows_sublist (df : DataFrame) (t : String) :
    (search_dataframe df t).rows.Sublist df.rows := by
  unfold search_dataframe keepRows
  split
  · exact List.Sublist.refl _
  · exact List.filter_sublist _

/-- C9: `filter_dataframe` and `search_dataframe` leave the input
table unchanged (the embedding is pure: both are functions of the
input returning a new frame); the result is a copy or subset — same
columns, a sub-sequence of the rows. -/
theorem filter_search_copy_or_subset (df : DataFrame)
    (fs : List (String × FilterVal)) (t : String) :
    (filter_dataframe df fs).cols = df.cols ∧
    (filter_dataframe df fs).rows.Sublist df.rows ∧
    (search_dataframe df t).cols = df.cols ∧
    (search_dataframe df t).rows.Sublist df.rows :=
  ⟨filter_dataframe_cols fs df, filter_dataframe_rows_sublist fs df,
   search_dataframe_cols df t, search_dataframe_rows_sublist df t⟩

/-- C8: a column mapped to the empty list is equivalent to omitting it
from the filter map; a column absent from the table is ignored; a
column mapped to a non-empty list keeps exactly the rows whose value
for that column is a member of the list. -/
theorem filter_empty_list_and_membership (df : DataFrame) (c : String)
    (v : FilterVal) (vs : List JVal) (fs1 fs2 : List (String × FilterVal)) :
    (filter_dataframe df (fs1 ++ (c, .list []) :: fs2) =
      filter_dataframe df (fs1 ++ fs2)) ∧
    (df.cols.contains c = false →
      filter_dataframe df (fs1 ++ (c, v) :: fs2) = filter_dataframe df (fs1 ++ fs2)) ∧
    (vs ≠ [] → df.cols.contains c = true →
      filter_dataframe df [(c, .list vs)] =
        ⟨df.cols, df.rows.filter (fun r => cellIn (cellAt df.cols c r) vs)⟩) := by
  refine ⟨?_, ?_, ?_⟩
  · unfold filter_dataframe
    rw [List.foldl_append, List.foldl_append, List.foldl_cons]
    have h0 : filterStep (List.foldl filterStep df fs1) (c, .list []) =
        List.foldl filterStep df fs1 := by
      simp [filterStep, filterTruthy]
    rw [h0]
  · intro hc
    unfold filter_dataframe
    rw [List.foldl_append, List.foldl_append, List.foldl_cons]
    have hcols : (List.foldl filterStep df fs1).cols = df.cols :=
      filter_dataframe_cols fs1 df
    have hc' : c ∉ df.cols := by simpa using hc
    have h0 : filterStep (List.foldl filterStep df fs1) (c, v) =
        List.foldl filterStep df fs1 := by
      simp [filterStep, hcols, hc']
    rw [h0]
  · intro hvs hc
    have h1 : filter_dataframe df [(c, .list vs)] = filterStep df (c, .list vs) := rfl
    rw [h1]
    have hvs' : vs.isEmpty = false := by
      cases vs with
      | nil => exact absurd rfl hvs
      | cons a l => rfl
    have hc' : c ∈ df.cols := by simpa using hc
    simp [filterStep, filterTruthy, hvs', hc', keepRows]

/-- Witness for C8 at a concrete two-row table: an empty-list filter is
a no-op, an absent column is ignored, and a `role` membership filter
keeps exactly the matching row. -/
theorem filter_empty_list_and_membership_witness :
    (filter_dataframe roleDf [("role", .list [])] = filter_dataframe roleDf []) ∧
    (roleDf.cols.contains "zzz" = false ∧
      filter_dataframe roleDf [("zzz", .scalar (.s "x"))] = filter_dataframe roleDf []) ∧
    ([JVal.s "CTO"] ≠ [] ∧ roleDf.cols.contains "role" = true ∧
      filter_dataframe roleDf [("role", .list [.s "CTO"])] =
        ⟨roleDf.cols, roleDf.rows.filter
          (fun r => cellIn (cellAt roleDf.cols "role" r) [.s "CTO"])⟩) :=
  ⟨(filter_empty_list_and_membership roleDf "role" (.scalar (.s "x")) [.s "CTO"] [] []).1,
   ⟨by decide,
    (filter_empty_list_and_membership roleDf "zzz" (.scalar (.s "x")) [.s "CTO"] [] []).2.1
      (by decide)⟩,
   ⟨by decide, by decide,
    (filter_empty_list_and_membership roleDf "role" (.scalar (.s "x")) [.s "CTO"] [] []).2.2
      (by decide) (by decide)⟩⟩

/-! ### Counting lemmas for `extract_keywords` -/

/-- Membership in the deduplication accumulator: an element appears
iff it occurs in the input and was not already seen. -/
theorem mem_firstDedupAux {α : Type} [DecidableEq α] (l : List α) :
    ∀ (seen : List α) (x : α), x ∈ firstDedupAux seen l ↔ x ∈ l ∧ x ∉ seen := by
  induction l with
  | nil => intro seen x; simp [firstDedupAux]
  | cons a as ih =>
    intro seen x
    by_cases ha : a ∈ seen
    · rw [show firstDedupAux seen (a :: as) = firstDedupAux seen as from by
        simp [firstDedupAux, ha]]
      constructor
      · intro hmem
        obtain ⟨h1, h2⟩ := (ih seen x).mp hmem
        exact ⟨List.mem_cons_of_mem a h1, h2⟩
      · rintro ⟨hmem, hns⟩
        rcases List.mem_cons.mp hmem with rfl | h1
        · exact absurd ha hns
        · exact (ih seen x).mpr ⟨h1, hns⟩
    · rw [show firstDedupAux seen (a :: as) = a :: firstDedupAux (a :: seen) as from by
        simp [firstDedupAux, ha]]
      constructor
      · intro hmem
        rcases List.mem_cons.mp hmem with rfl | hmem2
        · exact ⟨List.mem_cons_self x as, ha⟩
        · obtain ⟨h1, h2⟩ := (ih (a :: seen) x).mp hmem2
          exact ⟨List.mem_cons_of_mem a h1, fun hs => h2 (List.mem_cons_of_mem a hs)⟩
      · rintro ⟨hmem, hns⟩
        rcases List.mem_cons.mp hmem with rfl | h1
        · exact List.mem_cons_self x _
        · by_cases hxa : x = a
          · exact hxa ▸ List.mem_cons_self a _
          · exact List.mem_cons_of_mem a ((ih (a :: seen) x).mpr
              ⟨h1, fun hx => (List.mem_cons.mp hx).elim hxa hns⟩)

/-- The deduplication accumulator has no duplicates. -/
theorem nodup_firstDedupAux {α : Type} [DecidableEq α] (l : List α) :
    ∀ seen : List α, (firstDedupAux seen l).Nodup := by
  induction l with
  | nil => intro seen; simp [firstDedupAux]
  | cons a as ih =>
    intro seen
    by_cases ha : a ∈ seen
    · simpa [firstDedupAux, ha] using ih seen
    · rw [show firstDedupAux seen (a :: as) = a :: firstDedupAux (a :: seen) as from by
        simp [firstDedupAux, ha]]
      refine List.nodup_cons.mpr ⟨fun hmem => ?_, ih (a :: seen)⟩
      exact ((mem_firstDedupAux as (a :: seen) a).mp hmem).2 (List.mem_cons_self a seen)

/-- `firstDedup` has no duplicates and exactly the members of its
input. -/
theorem firstDedup_nodup_mem {α : Type} [DecidableEq α] (l : List α) :
    (firstDedup l).Nodup ∧ ∀ x, x ∈ firstDedup l ↔ x ∈ l := by
  refine ⟨nodup_firstDedupAux l [], fun x => ?_⟩
  simpa using mem_firstDedupAux l [] x

/-- The counts recorded by `tallies` add up to the input length. -/
theorem sum_tallies_eq_length {α : Type} [DecidableEq α] (l : List α) :
    ((tallies l).map Prod.snd).sum = l.length := by
  obtain ⟨hnd, hmem⟩ := firstDedup_nodup_mem l
  have hperm : List.Perm (firstDedup l) l.dedup := by
    apply List.perm_of_nodup_nodup_toFinset_eq hnd l.nodup_dedup
    ext a
    simp [List.mem_toFinset, hmem a, List.mem_dedup]
  have h1 : (tallies l).map Prod.snd = (firstDedup l).map (fun x => l.count x) := by
    simp [tallies, List.map_map, Function.comp]
  rw [h1, (hperm.map (fun x => l.count x)).sum_eq]
  exact List.sum_map_count_dedup_eq_length l

/-- A prefix of a list of naturals sums to at most the whole list. -/
theorem sum_take_le_sum (l : List Nat) (n : Nat) : (l.take n).sum ≤ l.sum := by
  conv_rhs => rw [← List.take_append_drop n l]
  rw [List.sum_append]
  exact Nat.le_add_right _ _

/-- A successful string extraction recovers exactly the string cells. -/
theorem mapME_strOfVal_ok (vs : List JVal) (ss : List String)
    (h : mapME strOfVal vs = .ok ss) :
    vs.filterMap (fun v => match v with | .s t => some t | _ => none) = ss := by
  induction vs generalizing ss with
  | nil =>
    simp only [mapME] at h
    cases h
    rfl
  | cons x xs ih =>
    cases x with
    | s t =>
      simp only [mapME, strOfVal] at h
      cases hrest : mapME strOfVal xs with
      | error e => rw [hrest] at h; cases h
      | ok ys =>
        rw [hrest] at h
        cases h
        simp [ih ys hrest]
    | null => simp only [mapME, strOfVal] at h; cases h
    | b y => simp only [mapME, strOfVal] at h; cases h
    | n y => simp only [mapME, strOfVal] at h; cases h
    | arr y => simp only [mapME, strOfVal] at h; cases h
    | obj y => simp only [mapME, strOfVal] at h; cases h

/-- C7: `extract_keywords` returns at most 20 entries, and the
returned counts add up to at most the number of non-empty
comma-separated trimmed tokens over the non-null cells of the column
(which contribute nothing when missing). -/
theorem extract_keywords_bounded (df : DataFrame) (column : String)
    (kws : List (String × Nat)) (h : extract_keywords df column = .ok kws) :
    kws.length ≤ 20 ∧ (kws.map Prod.snd).sum ≤ (specTokens df column).length := by
  unfold extract_keywords at h
  split at h
  · cases h
  · rename_i cells hcol
    split at h
    · cases h
    · rename_i strs hstrs
      cases h
      constructor
      · exact (List.length_take _ _).le.trans (Nat.min_le_left _ _)
      · set kept := ((strs.flatMap (fun s => (pySplitComma s).map pyStrip)).filter (· ≠ ""))
          with hkept
        have hsorted : List.Perm (byCountDesc (tallies kept)) (tallies kept) :=
          List.perm_insertionSort _ _
        have hsum : ((byCountDesc (tallies kept)).map Prod.snd).sum = kept.length := by
          rw [(hsorted.map Prod.snd).sum_eq]
          exact sum_tallies_eq_length kept
        have htake : (((byCountDesc (tallies kept)).take 20).map Prod.snd).sum ≤
            ((byCountDesc (tallies kept)).map Prod.snd).sum := by
          rw [List.map_take]
          exact sum_take_le_sum _ _
        have hvals : cells.filterMap
            (fun cl => match cl with | .val (.s s) => some s | _ => none) = strs := by
          rw [← mapME_strOfVal_ok (cells.filterMap cellVal?) strs hstrs,
            List.filterMap_filterMap]
          congr 1
          funext cl
          cases cl with
          | na => rfl
          | val v => cases v <;> rfl
        have hspec : specTokens df column = kept := by
          simp only [specTokens, hcol]
          rw [hvals, hkept, List.filter_flatMap]
        rw [hspec]
        exact htake.trans hsum.le

/-- Witness for C7 at the spec's keyword example. -/
theorem extract_keywords_bounded_witness :
    extract_keywords keywordExampleDf "challenge_keywords" =
      .ok [("cost", 2), ("speed", 1), ("support", 1)] ∧
    [("cost", 2), ("speed", 1), ("support", 1)].length ≤ 20 ∧
    ([("cost", 2), ("speed", 1), ("support", 1)].map Prod.snd).sum ≤
      (specTokens keywordExampleDf "challenge_keywords").length :=
  ⟨by decide,
   extract_keywords_bounded keywordExampleDf "challenge_keywords" _ (by decide)⟩

/-! ### Mean lemmas for `get_aggregate_metrics` -/

/-- A successful numeric extraction collects exactly the valid
(numeric or boolean, non-missing) values. -/
theorem mapME_cellNumE_ok (cells : List Cell) (os : List (Option QVal))
    (h : mapME cellNumE cells = .ok os) :
    os.reduceOption = cells.filterMap validNumVal? := by
  induction cells generalizing os with
  | nil =>
    simp only [mapME] at h
    cases h
    rfl
  | cons x xs ih =>
    cases hx : cellNumE x with
    | error e =>
      simp only [mapME, hx] at h
      cases h
    | ok o =>
      simp only [mapME, hx] at h
      cases hrest : mapME cellNumE xs with
      | error e => rw [hrest] at h; cases h
      | ok os2 =>
        rw [hrest] at h
        cases h
        cases x with
        | na =>
          simp only [cellNumE] at hx
          cases hx
          simpa [List.reduceOption, validNumVal?] using ih os2 hrest
        | val v =>
          cases v with
          | n q =>
            simp only [cellNumE] at hx
            cases hx
            simpa [List.reduceOption, validNumVal?] using ih os2 hrest
          | b y =>
            simp only [cellNumE] at hx
            cases hx
            simpa [List.reduceOption, validNumVal?] using ih os2 hrest
          | null => cases hx
          | s t => cases hx
          | arr y => cases hx
          | obj y => cases hx

/-- A successful `Series.mean` computes the spec's mean of the valid
values. -/
theorem seriesMean_ok_spec (cells : List Cell) (v : MetricVal)
    (h : seriesMean cells = .ok v) : v = specValidMean cells := by
  unfold seriesMean at h
  split at h
  · cases h
  · rename_i os hos
    have hred := mapME_cellNumE_ok cells os hos
    unfold specValidMean
    rw [← hred]
    split at h <;> rename_i hlen
    · cases h
      rw [if_pos hlen]
    · cases h
      rw [if_neg hlen]

/-- A successful column mean computes the spec's mean of the column. -/
theorem colMeanE_ok_spec (df : DataFrame) (c : String) (v : MetricVal)
    (h : colMeanE df c = .ok v) : v = specValidMean (colCellsD df c) := by
  unfold colMeanE at h
  split at h
  · cases h
  · rename_i cells hcol
    have : colCellsD df c = cells := by simp [colCellsD, hcol]
    rw [this]
    exact seriesMean_ok_spec cells v h

/-- C6: on every non-empty table for which `get_aggregate_metrics`
succeeds, each numeric mean (`overall_score`, `lead_score`,
`enthusiasm_level`, `completion_rate`) is the mean of the valid values
of that column — non-numeric/missing entries excluded from both
numerator and denominator. -/
theorem metrics_means_exclude_missing (df : DataFrame)
    (m : List (String × MetricVal)) (hne : dfEmpty df = false)
    (h : get_aggregate_metrics df = .ok m) :
    m.lookup "avg_engagement_score" =
      some (specValidMean (colCellsD df "overall_score")) ∧
    m.lookup "avg_lead_score" = some (specValidMean (colCellsD df "lead_score")) ∧
    m.lookup "avg_enthusiasm_level" =
      some (specValidMean (colCellsD df "enthusiasm_level")) ∧
    m.lookup "avg_completion_rate" =
      some (specValidMean (colCellsD df "completion_rate")) := by
  unfold get_aggregate_metrics at h
  rw [hne] at h
  simp only [Bool.false_eq_true, if_false] at h
  split at h
  · cases h
  · rename_i m1 h1
    split at h
    · cases h
    · rename_i m2 h2
      split at h
      · cases h
      · rename_i m3 h3
        split at h
        · cases h
        · rename_i m4 h4
          split at h
          · cases h
          · rename_i d1 hd1
            split at h
            · cases h
            · rename_i d2 hd2
              split at h
              · cases h
              · rename_i d3 hd3
                split at h
                · cases h
                · rename_i d4 hd4
                  split at h
                  · cases h
                  · rename_i d5 hd5
                    cases h
                    refine ⟨?_, ?_, ?_, ?_⟩ <;>
                      simp [List.lookup, colMeanE_ok_spec _ _ _ h1,
                        colMeanE_ok_spec _ _ _ h2, colMeanE_ok_spec _ _ _ h3,
                        colMeanE_ok_spec _ _ _ h4]

/-- Witness for C6: a three-row table whose `lead_score` column is
[2, NaN, 4]; the computed average lead score is 3, the mean of the two
valid values. -/
theorem metrics_means_exclude_missing_witness :
    dfEmpty meanExampleDf = false ∧
    get_aggregate_metrics meanExampleDf = .ok meanExampleMetrics ∧
    meanExampleMetrics.lookup "avg_lead_score" =
      some (specValidMean (colCellsD meanExampleDf "lead_score")) ∧
    specValidMean (colCellsD meanExampleDf "lead_score") = .num (3, 1) :=
  ⟨by decide, by decide,
   (metrics_means_exclude_missing meanExampleDf meanExampleMetrics
      (by decide) (by decide)).2.1,
   by decide⟩

/-! ### Regex-fragment lemmas for `search_dataframe` -/

/-- An all-literal pattern matches a prefix iff it is that prefix. -/
theorem tokMatches_lit (p : List Char) :
    ∀ cs : List Char, tokMatches (p.map RTok.lit) cs = true ↔ p <+: cs := by
  induction p with
  | nil =>
    intro cs
    simp [tokMatches, List.nil_prefix]
  | cons a p' ih =>
    intro cs
    cases cs with
    | nil => simp [tokMatches, List.prefix_nil]
    | cons c cs' =>
      simp only [List.map_cons, tokMatches, Bool.and_eq_true, decide_eq_true_eq,
        List.cons_prefix_cons, ih cs']

/-- An all-literal pattern is found by `re.search` iff it occurs as an
infix (substring). -/
theorem reSearch_lit (p : List Char) :
    ∀ cs : List Char, reSearch (p.map RTok.lit) cs = true ↔ p <:+: cs := by
  intro cs
  induction cs with
  | nil =>
    rw [show reSearch (p.map RTok.lit) [] = tokMatches (p.map RTok.lit) [] from rfl]
    rw [tokMatches_lit p [], List.prefix_nil, List.infix_nil]
  | cons c cs' ih =>
    rw [show reSearch (p.map RTok.lit) (c :: cs') =
        (tokMatches (p.map RTok.lit) (c :: cs') || reSearch (p.map RTok.lit) cs') from rfl]
    rw [Bool.or_eq_true, tokMatches_lit p (c :: cs'), ih, List.infix_cons_iff]

/-- A pattern without `.` parses to all-literal tokens. -/
theorem parsePat_noDot (cs : List Char) (h : ∀ c ∈ cs, c ≠ '.') :
    parsePat cs = cs.map RTok.lit := by
  unfold parsePat
  apply List.map_congr_left
  intro c hc
  rw [if_neg (h c hc)]

/-- On a plain-literal term, the embedded `re.search` is substring
containment of the lowered term. -/
theorem reSearch_plain (term : String) (hp : plainLiteral term = true)
    (text : List Char) :
    reSearch (parsePat (pyLower term).data) text =
      decide ((pyLower term).data <:+: text) := by
  have hnd : ∀ c ∈ (pyLower term).data, c ≠ '.' := by
    intro c hc
    have := List.all_eq_true.mp hp c hc
    intro hdot
    subst hdot
    simp at this
  rw [parsePat_noDot _ hnd]
  by_cases h : (pyLower term).data <:+: text
  · rw [decide_eq_true h]
    exact (reSearch_lit _ text).mpr h
  · rw [decide_eq_false h]
    exact Bool.eq_false_iff.mpr (fun hh => h ((reSearch_lit _ text).mp hh))

/-- Counterexample to C4 as stated: the term `"a.c"` is fed to
`re.search`, where `.` matches any character, so the row with cell
`"abc"` is kept although `"a.c"` is not a substring of it — the
substring description of the claim fails. -/
theorem search_regex_term_not_substring :
    search_dataframe abcDf "a.c" ≠ searchSpecSubstr abcDf "a.c" := by
  decide

/-- C4 (amended): the empty term returns the table unchanged; for a
term without regex metacharacters the kept rows are exactly those in
which the lowercased string form of some text-typed column contains
the lowercased term as a substring (terms with metacharacters are
instead interpreted as regular expressions); searching `"ACME"` and
`"acme"` yield identical results. -/
theorem search_identity_substring_caseless (df : DataFrame) (t : String) :
    (search_dataframe df "" = df) ∧
    (plainLiteral t = true → search_dataframe df t = searchSpecSubstr df t) ∧
    (search_dataframe df "ACME" = search_dataframe df "acme") := by
  refine ⟨by simp [search_dataframe], ?_, ?_⟩
  · intro hp
    unfold search_dataframe searchSpecSubstr
    by_cases ht : t = ""
    · rw [if_pos ht, if_pos ht]
    · rw [if_neg ht, if_neg ht]
      dsimp only
      congr 1
      funext r
      congr 1
      funext j
      rw [reSearch_plain t hp]
  · unfold search_dataframe
    rw [if_neg (by decide), if_neg (by decide),
      show pyLower "ACME" = pyLower "acme" from by decide]

/-- Witness for C4 (amended) on a concrete table and the plain term
`"bc"`: the regex search agrees with substring search. -/
theorem search_identity_substring_caseless_witness :
    plainLiteral "bc" = true ∧
    search_dataframe abcDf "bc" = searchSpecSubstr abcDf "bc" :=
  ⟨by decide, (search_identity_substring_caseless abcDf "bc").2.1 (by decide)⟩

/-! ### Flattening lemmas for `load_data` on valid envelopes -/

/-- Joining a JSON array of strings succeeds. -/
theorem toStrListE_ok : ∀ xs : JList, xs.allStr = true → ∃ ss, toStrListE xs = .ok ss
  | .nil, _ => ⟨[], rfl⟩
  | .cons x tl, h => by
    simp only [JList.allStr, Bool.and_eq_true] at h
    obtain ⟨hx, htl⟩ := h
    obtain ⟨ss, hss⟩ := toStrListE_ok tl htl
    cases x with
    | s t => exact ⟨t :: ss, by simp [toStrListE, hss, Except.map]⟩
    | null => cases hx
    | b y => cases hx
    | n y => cases hx
    | arr y => cases hx
    | obj y => cases hx

/-- A scalar field copy always succeeds on an object section. -/
theorem fieldCell_scalar_ok (sfs : JFields) (fk sk : String) (d : JVal) :
    ∃ p, fieldCell (.obj sfs) (.scalar fk sk d) = .ok p :=
  ⟨_, rfl⟩

/-- A joined field copy succeeds when the list sub-field is valid. -/
theorem fieldCell_joined_ok (sfs : JFields) (fk sk : String)
    (hv : validListField sfs sk = true) :
    ∃ p, fieldCell (.obj sfs) (.joined fk sk) = .ok p := by
  simp only [fieldCell, jget]
  simp only [validListField] at hv
  cases hf : sfs.find? sk with
  | none =>
    exact ⟨(fk, .s ""), by simp [hf, jarr, JList.ofList, joinList, toStrListE, joinComma, Except.map]⟩
  | some v =>
    rw [hf] at hv
    cases v with
    | arr xs =>
      obtain ⟨ss, hss⟩ := toStrListE_ok xs hv
      exact ⟨(fk, .s (joinComma ss)), by simp [hf, joinList, hss, Except.map]⟩
    | null => cases hv
    | b y => cases hv
    | n y => cases hv
    | s t => cases hv
    | obj y => cases hv

/-- Copying all fields of a block succeeds when the section's list
sub-fields are valid. -/
theorem mapME_fieldCell_ok (sfs : JFields) (fields : List FieldSpec)
    (hv : (joinedKeys fields).all (validListField sfs) = true) :
    ∃ ps, mapME (fieldCell (.obj sfs)) fields = .ok ps := by
  induction fields with
  | nil => exact ⟨[], rfl⟩
  | cons f rest ih =>
    cases f with
    | scalar fk sk d =>
      have hrest : (joinedKeys rest).all (validListField sfs) = true := by
        simpa [joinedKeys] using hv
      obtain ⟨ps, hps⟩ := ih hrest
      obtain ⟨p, hp⟩ := fieldCell_scalar_ok sfs fk sk d
      exact ⟨p :: ps, by simp [mapME, hp, hps]⟩
    | joined fk sk =>
      have hv' : validListField sfs sk = true ∧
          (joinedKeys rest).all (validListField sfs) = true := by
        simpa [joinedKeys] using hv
      obtain ⟨ps, hps⟩ := ih hv'.2
      obtain ⟨p, hp⟩ := fieldCell_joined_ok sfs fk sk hv'.1
      exact ⟨p :: ps, by simp [mapME, hp, hps]⟩

/-- One flattening block succeeds on a valid section. -/
theorem addSection_ok (fs : JFields) (name : String) (fields : List FieldSpec)
    (hv : validSection fs name fields = true) (row : Row) :
    ∃ row', addSection (.obj fs) row name fields = .ok row' := by
  unfold addSection
  unfold validSection at hv
  cases hf : fs.find? name with
  | none =>
    refine ⟨row, ?_⟩
    simp [pyIn, hf]
  | some v =>
    rw [hf] at hv
    cases v with
    | obj sfs =>
      obtain ⟨ps, hps⟩ := mapME_fieldCell_ok sfs fields hv
      refine ⟨row ++ ps, ?_⟩
      simp [pyIn, pySub, hf, hps]
    | null => cases hv
    | b y => cases hv
    | n y => cases hv
    | s t => cases hv
    | arr y => cases hv

/-- Threading every valid block through the row succeeds. -/
theorem foldSections_ok (schema : List (String × List FieldSpec)) (fs : JFields)
    (hv : (schema.all fun p => validSection fs p.1 p.2) = true) :
    ∀ row, ∃ row', foldSections (.obj fs) row schema = .ok row' := by
  induction schema with
  | nil => exact fun row => ⟨row, rfl⟩
  | cons p rest ih =>
    intro row
    simp only [List.all_cons, Bool.and_eq_true] at hv
    obtain ⟨row2, h2⟩ := addSection_ok fs p.1 p.2 hv.1 row
    obtain ⟨row', h'⟩ := ih hv.2 row2
    refine ⟨row', ?_⟩
    cases p with
    | mk n fl => simpa [foldSections, h2] using h'

/-- Flattening a valid envelope element succeeds, and produces a row
exactly when the element has the nested path. -/
theorem flattenItem_valid (e : JVal) (hv : validEnvelope e = true) :
    ∃ o, flattenItem e = .ok o ∧ o.isSome = hasPath e := by
  cases e with
  | obj fs =>
    simp only [validEnvelope] at hv
    cases hm : fs.find? "message" with
    | none => exact ⟨none, by simp [flattenItem, pyIn, hm], by simp [hasPath, hm]⟩
    | some m =>
      rw [hm] at hv
      cases m with
      | obj ms =>
        dsimp only at hv
        cases hc : ms.find? "content" with
        | none =>
          exact ⟨none, by simp [flattenItem, pyIn, pySub, hm, hc],
            by simp [hasPath, hm, hc]⟩
        | some c =>
          rw [hc] at hv
          cases c with
          | obj cs =>
            dsimp only at hv
            cases ha : cs.find? "contact_analytics" with
            | none =>
              exact ⟨none, by simp [flattenItem, pyIn, pySub, hm, hc, ha],
                by simp [hasPath, hm, hc, ha]⟩
            | some ca =>
              rw [ha] at hv
              simp only [validAnalytics] at hv
              cases ca with
              | obj cfs =>
                dsimp only at hv
                obtain ⟨row, hrow⟩ := foldSections_ok sectionSchema cfs hv
                  [("contact_id", ((cfs.find? "contact_id").getD (.s "")))]
                refine ⟨some row, ?_, by simp [hasPath, hm, hc, ha]⟩
                simp [flattenItem, pyIn, pySub, jget, hm, hc, ha, hrow]
              | null => cases hv
              | b y => cases hv
              | n y => cases hv
              | s t => cases hv
              | arr y => cases hv
          | null => cases hv
          | b y => cases hv
          | n y => cases hv
          | s t => cases hv
          | arr y => cases hv
      | null => cases hv
      | b y => cases hv
      | n y => cases hv
      | s t => cases hv
      | arr y => cases hv
  | null => cases hv
  | b y => cases hv
  | n y => cases hv
  | s t => cases hv
  | arr y => cases hv

/-- Flattening a valid envelope array succeeds with one row per
element that has the nested path. -/
theorem flattenAll_valid (items : List JVal)
    (hv : ∀ e ∈ items, validEnvelope e = true) :
    ∃ rows, flattenAll items = .ok rows ∧
      rows.length = (items.filter (fun e => hasPath e)).length := by
  induction items with
  | nil => exact ⟨[], rfl, rfl⟩
  | cons e es ih =>
    obtain ⟨o, ho, hs⟩ := flattenItem_valid e (hv e (List.mem_cons_self e es))
    obtain ⟨rows, hr, hl⟩ := ih (fun x hx => hv x (List.mem_cons_of_mem e hx))
    cases o with
    | some r =>
      refine ⟨r :: rows, by simp [flattenAll, ho, hr], ?_⟩
      rw [List.filter_cons, if_pos (by simpa using hs.symm)]
      simp [hl]
    | none =>
      refine ⟨rows, by simp [flattenAll, ho, hr], ?_⟩
      rw [List.filter_cons, if_neg (by simp [← hs])]
      exact hl

/-- `pd.DataFrame(dicts)` has one row per dict. -/
theorem mkDataFrame_length (rs : List Row) :
    (mkDataFrame rs).rows.length = rs.length := by
  simp [mkDataFrame]

/-- A column coercion keeps the row count. -/
theorem mapColumn_rows_length (df : DataFrame) (c : String) (f : Cell → Cell) :
    (mapColumn df c f).rows.length = df.rows.length := by
  unfold mapColumn
  split
  · rfl
  · simp

/-- The coercion passes keep the row count. -/
theorem foldl_mapColumn_length (cols : List String) (f : Cell → Cell) (df : DataFrame) :
    (cols.foldl (fun d c => mapColumn d c f) df).rows.length = df.rows.length := by
  induction cols generalizing df with
  | nil => rfl
  | cons c cs ih => rw [List.foldl_cons, ih, mapColumn_rows_length]

/-- C1: for every valid envelope array, `load_data` succeeds and the
table has exactly one row per element containing the nested path
`message.content.contact_analytics`; elements lacking the path
contribute no row and cause no error. -/
theorem load_counts_path_elements (items : List JVal)
    (hv : ∀ e ∈ items, validEnvelope e = true) :
    ∃ df, load_data (.ok items) = .ok df ∧
      df.rows.length = (items.filter (fun e => hasPath e)).length := by
  obtain ⟨rows, hr, hl⟩ := flattenAll_valid items hv
  refine ⟨boolCols.foldl (fun d c => mapColumn d c toBoolCell)
    (numericCols.foldl (fun d c => mapColumn d c toNumericCell) (mkDataFrame rows)),
    ?_, ?_⟩
  · have hstep : load_data (.ok items) =
        (match loadPipeline items with
         | .ok df => .ok df
         | .error e => .error ("Error loading or processing data: " ++ e)) := rfl
    have hpipe : loadPipeline items =
        .ok (boolCols.foldl (fun d c => mapColumn d c toBoolCell)
          (numericCols.foldl (fun d c => mapColumn d c toNumericCell)
            (mkDataFrame rows))) := by
      unfold loadPipeline
      rw [hr]
    rw [hstep, hpipe]
  · rw [foldl_mapColumn_length, foldl_mapColumn_length, mkDataFrame_length, hl]

/-- Witness for C1: a two-element valid array, one element with the
path and one without; exactly one row is loaded. -/
theorem load_counts_path_elements_witness :
    (∀ e ∈ [noSentimentElem, noPathElem], validEnvelope e = true) ∧
    (∃ df, load_data (.ok [noSentimentElem, noPathElem]) = .ok df ∧
      df.rows.length =
        ([noSentimentElem, noPathElem].filter (fun e => hasPath e)).length) :=
  ⟨by decide, load_counts_path_elements _ (by decide)⟩

end TextAnalytics
